import Mathlib

set_option maxHeartbeats 1000000

/- Shallow embedding of src/ssj/cli.py (the ssj SLURM job viewer).
Python strings are modelled as lists of characters, Python dicts over
string keys as association lists with Python's semantics (an assignment
updates the stored value in place when the key is present and appends
otherwise).  Console output is modelled as a list of events.  External
effects (the scontrol process, the filesystem, regex compilation) are
modelled as explicit oracle parameters. -/

abbrev PyStr := List Char

/-- Whitespace recognised by Python str.split and str.strip (ASCII range). -/
def pyIsSpace (c : Char) : Bool :=
  c == ' ' || c == '\t' || c == '\n' || c == '\r' || c == '\x0b' || c == '\x0c'

/-- Worker for pySplitWs; cur is the token being accumulated, reversed. -/
def splitWsGo (cur : PyStr) : PyStr → List PyStr
  | [] => if cur = [] then [] else [cur.reverse]
  | c :: rest =>
    if pyIsSpace c then
      if cur = [] then splitWsGo [] rest else cur.reverse :: splitWsGo [] rest
    else
      splitWsGo (c :: cur) rest

/-- Python str.split() with no arguments: split on runs of whitespace,
dropping empty tokens. -/
def pySplitWs (s : PyStr) : List PyStr := splitWsGo [] s

/-- Python str.strip(): remove leading and trailing whitespace. -/
def pyStrip (s : PyStr) : PyStr :=
  ((s.dropWhile pyIsSpace).reverse.dropWhile pyIsSpace).reverse

/-- Python part.split(sep, 1) for the single-character separator, in the
branch where the separator occurs: the piece before the first occurrence
and the piece after it. -/
def splitOnceEq (s : PyStr) : PyStr × PyStr :=
  (s.takeWhile (fun c => !(c == '=')), (s.dropWhile (fun c => !(c == '='))).drop 1)

abbrev Dict := List (PyStr × PyStr)

/-- Python d.get(k): the value stored at key k, if any. -/
def dictGet : Dict → PyStr → Option PyStr
  | [], _ => none
  | kv :: m, k => if kv.1 = k then some kv.2 else dictGet m k

def containsKey : Dict → PyStr → Bool
  | [], _ => false
  | kv :: m, k => if kv.1 = k then true else containsKey m k

def replaceVal : Dict → PyStr → PyStr → Dict
  | [], _, _ => []
  | kv :: m, k, v => if kv.1 = k then (k, v) :: replaceVal m k v else kv :: replaceVal m k v

/-- Python d[k] = v on an insertion-ordered dict. -/
def dictInsert (m : Dict) (k v : PyStr) : Dict :=
  if containsKey m k then replaceVal m k v else m ++ [(k, v)]

/-- cli.py, parse_scontrol_output: strip the blob, split it on whitespace,
and for each token containing an equals sign split once at the first
equals sign and assign key.strip() = val.strip() into the dict. -/
def parse_scontrol_output (output : PyStr) : Dict :=
  (pySplitWs (pyStrip output)).foldl
    (fun kvPairs part =>
      if '=' ∈ part then
        dictInsert kvPairs (pyStrip (splitOnceEq part).1) (pyStrip (splitOnceEq part).2)
      else kvPairs) []

def optOr (a b : Option PyStr) : Option PyStr :=
  match a with
  | some v => some v
  | none => b

/-- The key=value pairs carried by the input, in token order: the
whitespace-separated tokens containing an equals sign, each split once at
the first equals sign (tokens without an equals sign contribute nothing). -/
def pairsOf (output : PyStr) : List (PyStr × PyStr) :=
  (pySplitWs (pyStrip output)).filterMap
    (fun part =>
      if '=' ∈ part then
        some (pyStrip (splitOnceEq part).1, pyStrip (splitOnceEq part).2)
      else none)

/-- The value of the last pair in the list whose key is k, if any. -/
def lastLookup : List (PyStr × PyStr) → PyStr → Option PyStr
  | [], _ => none
  | kv :: rest, k =>
    match lastLookup rest k with
    | some v => some v
    | none => if kv.1 = k then some kv.2 else none

/-- Python str.lower() restricted to its ASCII action. -/
def pyLowerChar (c : Char) : Char :=
  if 65 ≤ c.toNat ∧ c.toNat ≤ 90 then Char.ofNat (c.toNat + 32) else c

def pyLower (s : PyStr) : PyStr := s.map pyLowerChar

/-- Python str.upper() restricted to its ASCII action, on one character. -/
def pyUpperChar (c : Char) : Char :=
  if 97 ≤ c.toNat ∧ c.toNat ≤ 122 then Char.ofNat (c.toNat - 32) else c

/-- Python str.capitalize(): first character upper-cased, rest lower-cased. -/
def pyCapitalize : PyStr → PyStr
  | [] => []
  | c :: rest => pyUpperChar c :: pyLower rest

/-- Python truthiness of an optional string: None and the empty string
are falsy. -/
def truthyS : Option PyStr → Bool
  | none => false
  | some s => decide (s ≠ [])

/-- Python a or b on optional strings: a when truthy, otherwise b. -/
def pyOr (a b : Option PyStr) : Option PyStr :=
  if truthyS a then a else b

/-- Patterns accepted by the embedded regular-expression engine. -/
inductive Regex where
  | fail : Regex
  | eps : Regex
  | chr (c : Char) : Regex
  | dot : Regex
  | alt (r1 r2 : Regex) : Regex
  | cat (r1 r2 : Regex) : Regex
  | star (r : Regex) : Regex
deriving DecidableEq

def nullable : Regex → Bool
  | .fail => false
  | .eps => true
  | .chr _ => false
  | .dot => false
  | .alt r1 r2 => nullable r1 || nullable r2
  | .cat r1 r2 => nullable r1 && nullable r2
  | .star _ => true

/-- A pattern character matches a text character under re.IGNORECASE. -/
def ciEq (c a : Char) : Bool := pyLowerChar c == pyLowerChar a

/-- Brzozowski derivative of a pattern by one text character, with
case-insensitive character matching; the dot does not match a newline. -/
def rderiv (r : Regex) (a : Char) : Regex :=
  match r with
  | .fail => .fail
  | .eps => .fail
  | .chr c => if ciEq c a then .eps else .fail
  | .dot => if a = '\n' then .fail else .eps
  | .alt r1 r2 => .alt (rderiv r1 a) (rderiv r2 a)
  | .cat r1 r2 =>
    if nullable r1 then .alt (.cat (rderiv r1 a) r2) (rderiv r2 a)
    else .cat (rderiv r1 a) r2
  | .star r1 => .cat (rderiv r1 a) (.star r1)

/-- The pattern matches the whole string. -/
def rmatch (r : Regex) : PyStr → Bool
  | [] => nullable r
  | a :: s => rmatch (rderiv r a) s

/-- The pattern matches some leading segment of the string (what Python's
re.match checks at one position). -/
def matchAtStart (r : Regex) : PyStr → Bool
  | [] => nullable r
  | a :: s => nullable r || matchAtStart (rderiv r a) s

/-- Python pattern.search(s): the pattern matches starting at some
position in the string (unanchored, need not reach the end). -/
def reSearch (r : Regex) : PyStr → Bool
  | [] => nullable r
  | a :: s => matchAtStart r (a :: s) || reSearch r s

/-- cli.py print_table, the lower_fields binding: None when fields is
None or empty (Python truthiness), otherwise the lower-cased names. -/
def lowerFieldsOf : Option (List PyStr) → Option (List PyStr)
  | none => none
  | some fs => if fs = [] then none else some (fs.map pyLower)

/-- cli.py print_table, the per-row test inside the loop: fields_match
and regex_match combined. -/
def rowIncluded (lowerFields : Option (List PyStr)) (pattern : Option Regex)
    (key : PyStr) : Bool :=
  (match lowerFields with
   | none => true
   | some lf => if lf = [] then true else decide (pyLower key ∈ lf)) &&
  (match pattern with
   | none => true
   | some p => reSearch p key)

/-- The table filter as applied to the raw fields argument. -/
def tableFilter (fields : Option (List PyStr)) (pattern : Option Regex)
    (key : PyStr) : Bool :=
  rowIncluded (lowerFieldsOf fields) pattern key

def nullLit : PyStr := "(null)".data

def cmdKey : PyStr := "Command".data

def batchKey : PyStr := "BatchScript".data

def stdoutKey : PyStr := "StdOut".data

def stderrKey : PyStr := "StdErr".data

def workDirKey : PyStr := "WorkDir".data

/-- cli.py JobDisplay.get_script_path: data.get of Command or-else
data.get of BatchScript, under Python truthiness. -/
def get_script_path (data : Dict) : Option PyStr :=
  pyOr (dictGet data cmdKey) (dictGet data batchKey)

def get_stdout_path (data : Dict) : Option PyStr := dictGet data stdoutKey

def get_stderr_path (data : Dict) : Option PyStr := dictGet data stderrKey

def get_working_dir (data : Dict) : Option PyStr := dictGet data workDirKey

/-- Python os.path.isabs for POSIX paths. -/
def pyIsAbs (p : PyStr) : Bool :=
  match p with
  | [] => false
  | c :: _ => c == '/'

/-- Python os.path.join for POSIX paths, two arguments. -/
def pyJoin (a b : PyStr) : PyStr :=
  if pyIsAbs b then b
  else if a = [] ∨ a.getLast? = some '/' then a ++ b
  else a ++ '/' :: b

/-- cli.py JobDisplay.show_file_content, lines 92-95: join a non-absolute
path onto the working directory when the working directory is truthy. -/
def resolve_show_path (data : Dict) (p : PyStr) : PyStr :=
  if pyIsAbs p then p
  else
    match get_working_dir data with
    | some w => if w = [] then p else pyJoin w p
    | none => p

/-- cli.py JobDisplay.list_file_paths, lines 168-175: the same resolution,
written out a second time in the source. -/
def resolve_list_path (data : Dict) (p : PyStr) : PyStr :=
  if pyIsAbs p then p
  else
    match get_working_dir data with
    | some w => if w = [] then p else pyJoin w p
    | none => p

/-- Follows the spec's words (section 4.4), for comparison with the two
resolution sites of the source: an absolute path is unchanged; a
non-absolute path is joined with the working-directory attribute value
when that attribute is present, and left as-is otherwise. -/
def resolve_per_spec (data : Dict) (p : PyStr) : PyStr :=
  if pyIsAbs p then p
  else
    match dictGet data workDirKey with
    | some w => pyJoin w p
    | none => p

def intToStr (n : Int) : PyStr := (toString n).data

/-- Python pathlib Path(p).name: the part after the last slash. -/
def pyBasename (p : PyStr) : PyStr :=
  (p.reverse.takeWhile (fun c => !(c == '/'))).reverse

def noPathMsg (fileType : PyStr) (jobId : Int) : PyStr :=
  "[yellow]Warning[/yellow]: No ".data ++ fileType ++
    " path available for job ".data ++ intToStr jobId

def notFoundMsg (fileType p : PyStr) : PyStr :=
  "[red]Error[/red]: ".data ++ pyCapitalize fileType ++ " file not found: ".data ++ p

def readFailMsg (fileType p e : PyStr) : PyStr :=
  "[red]Error[/red]: Failed to read ".data ++ fileType ++ " file ".data ++ p ++
    ": ".data ++ e

def invalidRegexMsg (pat e : PyStr) : PyStr :=
  "[red]Error[/red]: Invalid regex pattern \x27".data ++ pat ++ "\x27: ".data ++ e

def noMatchMsg (jobId : Int) : PyStr :=
  "[yellow]Warning[/yellow]: No matching fields found for job ".data ++ intToStr jobId

def fetchProcErrMsg (jobId : Int) (e : PyStr) : PyStr :=
  "[red]Error[/red]: Failed to execute scontrol for job ".data ++ intToStr jobId ++
    ": ".data ++ e

def fetchOtherErrMsg (jobId : Int) (e : PyStr) : PyStr :=
  "[red]Error[/red]: Unexpected error fetching data for job ".data ++ intToStr jobId ++
    ": ".data ++ e

def tableTitle (jobId : Int) : PyStr :=
  "Job ".data ++ intToStr jobId ++ " Details".data

def fileTableTitle (jobId : Int) : PyStr :=
  "Job ".data ++ intToStr jobId ++ " File Paths".data

/-- Console output events: rich console prints and raw json dumps. -/
inductive Event where
  | errorMsg (msg : PyStr)
  | warnMsg (msg : PyStr)
  | tableRows (title : PyStr) (rows : List (PyStr × PyStr))
  | fileTable (title : PyStr) (rows : List (PyStr × PyStr × PyStr))
  | panelOut (title : PyStr) (content : PyStr)
  | jsonOut (d : Dict)
deriving DecidableEq

/-- cli.py print_table after pattern compilation: add the rows passing the
filter, print the table when at least one row was added, otherwise warn. -/
def print_table_rows (jobId : Int) (data : Dict) (fields : Option (List PyStr))
    (pattern : Option Regex) : List Event :=
  let rows := data.filter (fun kv => rowIncluded (lowerFieldsOf fields) pattern kv.1)
  if rows = [] then [.warnMsg (noMatchMsg jobId)]
  else [.tableRows (tableTitle jobId) rows]

/-- cli.py JobDisplay.print_table: compile the regex filter when one is
given (Python truthiness: an empty pattern string counts as no filter); an
invalid pattern reports an error naming it and aborts this display. -/
def print_table (jobId : Int) (data : Dict) (fields : Option (List PyStr))
    (regexFilter : Option PyStr) (compile : PyStr → Except PyStr Regex) : List Event :=
  match regexFilter with
  | some pat =>
    if pat = [] then print_table_rows jobId data fields none
    else
      match compile pat with
      | .error e => [.errorMsg (invalidRegexMsg pat e)]
      | .ok p => print_table_rows jobId data fields (some p)
  | none => print_table_rows jobId data fields none

/-- Result of checking and reading one file: the path does not exist, the
read raised, or the file's lines (each keeping its newline, as Python
readlines and file iteration produce them). -/
inductive ReadResult where
  | absent : ReadResult
  | readErr (e : PyStr) : ReadResult
  | readOk (ls : List PyStr) : ReadResult
deriving DecidableEq

/-- Python l[s:] list slicing with an arbitrary integer start index. -/
def pySliceFrom (l : List PyStr) (s : Int) : List PyStr :=
  if s < 0 then l.drop (((l.length : Int) + s).toNat) else l.drop s.toNat

/-- cli.py show_file_content, the truncation choice: the last N lines when
the tail flag and a truthy line count are given, the first N lines when
only a truthy line count is given, the complete content otherwise (a line
count of zero is falsy in Python). -/
def selectContent (ls : List PyStr) : Option Int → Bool → List PyStr
  | some n, true => if n ≠ 0 then pySliceFrom ls (-n) else ls
  | some n, false => if n ≠ 0 then ls.take n.toNat else ls
  | none, _ => ls

/-- cli.py show_file_content, the title suffix naming the truncation. -/
def suffixFor : Option Int → Bool → PyStr
  | some n, true =>
    if n ≠ 0 then " (last ".data ++ intToStr n ++ " lines)".data else []
  | some n, false =>
    if n ≠ 0 then " (first ".data ++ intToStr n ++ " lines)".data else []
  | none, _ => []

def panelTitle (jobId : Int) (fileType p suffixTag : PyStr) : PyStr :=
  "Job ".data ++ intToStr jobId ++ " - ".data ++ pyCapitalize fileType ++
    ": ".data ++ pyBasename p ++ suffixTag

/-- cli.py JobDisplay.show_file_content: warn when the path value is
missing, empty or the literal (null); resolve a non-absolute path against
a truthy working directory; report a nonexistent file; otherwise read the
file, truncate per lines/tail, and display the content in a titled
panel. -/
def show_file_content (jobId : Int) (data : Dict) (fs : PyStr → ReadResult)
    (filePath : Option PyStr) (fileType : PyStr) (lines : Option Int) (tl : Bool) :
    List Event :=
  if truthyS filePath = false ∨ filePath = some nullLit then
    [.warnMsg (noPathMsg fileType jobId)]
  else
    let p := resolve_show_path data (filePath.getD [])
    match fs p with
    | .absent => [.errorMsg (notFoundMsg fileType p)]
    | .readErr e => [.errorMsg (readFailMsg fileType p e)]
    | .readOk ls =>
      [.panelOut (panelTitle jobId fileType p (suffixFor lines tl))
        ((selectContent ls lines tl).flatten)]

def fileTypeScript : PyStr := "Script".data

def fileTypeStdOut : PyStr := "StdOut".data

def fileTypeStdErr : PyStr := "StdErr".data

def fileTypeWorkDir : PyStr := "WorkDir".data

def glyphYes : PyStr := "✓".data

def glyphNo : PyStr := "✗".data

/-- cli.py list_file_paths, one loop iteration: the row for one
(file type, path value) entry, skipped when the value is absent, empty or
the literal (null); the existence glyph checks a directory for WorkDir and
an existing resolved path for the others. -/
def fileRow (data : Dict) (isdir pathEx : PyStr → Bool) (ft : PyStr) :
    Option PyStr → List (PyStr × PyStr × PyStr)
  | none => []
  | some p =>
    if p ≠ [] ∧ p ≠ nullLit then
      if ft = fileTypeWorkDir then
        [(ft, p, if isdir p then glyphYes else glyphNo)]
      else
        [(ft, p, if pathEx (resolve_list_path data p) then glyphYes else glyphNo)]
    else []

/-- cli.py JobDisplay.list_file_paths: rows for Script, StdOut, StdErr and
WorkDir in that order, and the table is printed unconditionally. -/
def list_file_paths (jobId : Int) (data : Dict) (isdir pathEx : PyStr → Bool) :
    List Event :=
  [.fileTable (fileTableTitle jobId)
    (fileRow data isdir pathEx fileTypeScript (get_script_path data) ++
     fileRow data isdir pathEx fileTypeStdOut (get_stdout_path data) ++
     fileRow data isdir pathEx fileTypeStdErr (get_stderr_path data) ++
     fileRow data isdir pathEx fileTypeWorkDir (get_working_dir data))]

/-- Outcome of invoking scontrol show job for one id: captured stdout, a
CalledProcessError, or any other exception. -/
inductive FetchOutcome where
  | success (out : PyStr)
  | procError (e : PyStr)
  | otherError (e : PyStr)
deriving DecidableEq

def isFailure : FetchOutcome → Bool
  | .success _ => false
  | .procError _ => true
  | .otherError _ => true

/-- cli.py JobDisplay.fetch_data: on success parse stdout into the job's
data; on a CalledProcessError or any other exception print an error naming
the job id and leave the job without data. -/
def fetch_data (jobId : Int) : FetchOutcome → Option Dict × List Event
  | .success out => (some (parse_scontrol_output out), [])
  | .procError e => (none, [.errorMsg (fetchProcErrMsg jobId e)])
  | .otherError e => (none, [.errorMsg (fetchOtherErrMsg jobId e)])

/-- Command-line flags and options of the tool. -/
structure Args where
  json : Bool
  files : Bool
  script : Bool
  stdout : Bool
  stderr : Bool
  fields : Option (List PyStr)
  grep : Option PyStr
  lines : Option Int
  tail : Bool

/-- The display modes a fetched job can be dispatched to. -/
inductive DisplayMode where
  | jsonDump
  | filesMode
  | scriptMode
  | stdoutMode
  | stderrMode
  | tableMode
deriving DecidableEq

/-- cli.py main, the display conditional chain for one fetched job. -/
def dispatch (a : Args) : DisplayMode :=
  if a.json then .jsonDump
  else if a.files then .filesMode
  else if a.script then .scriptMode
  else if a.stdout then .stdoutMode
  else if a.stderr then .stderrMode
  else .tableMode

/-- The external world as seen by the driver. -/
structure SysEnv where
  scontrol : Int → FetchOutcome
  readFile : PyStr → ReadResult
  isdir : PyStr → Bool
  pathEx : PyStr → Bool
  compile : PyStr → Except PyStr Regex

/-- The display a fetched job receives under the chosen mode. -/
def displayJob (env : SysEnv) (a : Args) (jobId : Int) (data : Dict) : List Event :=
  match dispatch a with
  | .jsonDump => [.jsonOut data]
  | .filesMode => list_file_paths jobId data env.isdir env.pathEx
  | .scriptMode =>
    show_file_content jobId data env.readFile (get_script_path data)
      ("script".data) a.lines a.tail
  | .stdoutMode =>
    show_file_content jobId data env.readFile (get_stdout_path data)
      ("stdout log".data) a.lines a.tail
  | .stderrMode =>
    show_file_content jobId data env.readFile (get_stderr_path data)
      ("stderr log".data) a.lines a.tail
  | .tableMode => print_table jobId data a.fields a.grep env.compile

/-- cli.py main, one iteration of the job loop: fetch, and on success
display; on failure only the fetch error is printed and the job yields
nothing else. -/
def processJob (env : SysEnv) (a : Args) (jobId : Int) : List Event :=
  match fetch_data jobId (env.scontrol jobId) with
  | (some d, evs) => evs ++ displayJob env a jobId d
  | (none, evs) => evs

/-- cli.py main: process every requested job id in input order. -/
def mainLoop (env : SysEnv) (a : Args) (jobIds : List Int) : List Event :=
  (jobIds.map (processJob env a)).flatten

/- Concrete fixtures used by witness and counterexample theorems. -/

def wFs : PyStr → ReadResult := fun _ => .absent

def wCompile : PyStr → Except PyStr Regex := fun _ => .ok .eps

def wBadCompile : PyStr → Except PyStr Regex := fun _ => .error ("err".data)

def wArgs : Args := ⟨false, false, false, false, false, none, none, none, false⟩

def wEnv : SysEnv :=
  ⟨fun _ => .procError ("boom".data), wFs, fun _ => false, fun _ => false, wCompile⟩

def dWdNull : Dict := [(workDirKey, nullLit)]

def dWd : Dict := [(workDirKey, "/w".data)]

def dCmdNullBatch : Dict := [(cmdKey, nullLit), (batchKey, "/a/b.sh".data)]

def dCmd : Dict := [(cmdKey, "/x".data)]

def dCmdNullOnly : Dict := [(cmdKey, nullLit)]

def dStdout : Dict := [(stdoutKey, "/o".data)]

def wLines : List PyStr := ["l1\n".data, "l2\n".data, "l3\n".data]

def wFs6 : PyStr → ReadResult :=
  fun q => if q = "/g".data then .readOk wLines else .absent

def lC : List PyStr := ["a".data]

def fsC : PyStr → ReadResult :=
  fun q => if q = "/f".data then .readOk lC else .absent

/-- The content shown by a panel event, if the event is a panel. -/
def eventContent : Event → Option PyStr
  | .panelOut _ c => some c
  | _ => none

/- THEOREMS -/

theorem optOr_none (a : Option PyStr) : optOr a none = a := by
  cases a <;> rfl

theorem dictGet_eq_none_of_not_contains (m : Dict) (k : PyStr)
    (h : containsKey m k = false) : dictGet m k = none := by
  induction m with
  | nil => rfl
  | cons kv m ih =>
    by_cases hk : kv.1 = k
    · simp [containsKey, hk] at h
    · simp only [containsKey, if_neg hk] at h
      simp only [dictGet, if_neg hk]
      exact ih h

theorem dictGet_append_last (m : Dict) (k0 v0 k : PyStr) :
    dictGet (m ++ [(k0, v0)]) k = optOr (dictGet m k) (if k0 = k then some v0 else none) := by
  induction m with
  | nil => by_cases h : k0 = k <;> simp [dictGet, optOr, h]
  | cons kv m ih =>
    by_cases hk : kv.1 = k
    · simp [dictGet, hk, optOr]
    · simp [dictGet, hk, ih]

theorem dictGet_replaceVal_ne (m : Dict) (k0 v0 k : PyStr) (h : k0 ≠ k) :
    dictGet (replaceVal m k0 v0) k = dictGet m k := by
  induction m with
  | nil => rfl
  | cons kv m ih =>
    by_cases hk : kv.1 = k0
    · have hk2 : ¬ kv.1 = k := by rw [hk]; exact h
      simp only [replaceVal, if_pos hk, dictGet, if_neg h, if_neg hk2]
      exact ih
    · simp only [replaceVal, if_neg hk, dictGet]
      by_cases hk2 : kv.1 = k
      · simp [hk2]
      · simp only [if_neg hk2]; exact ih

theorem dictGet_replaceVal_self (m : Dict) (k v : PyStr)
    (h : containsKey m k = true) : dictGet (replaceVal m k v) k = some v := by
  induction m with
  | nil => simp [containsKey] at h
  | cons kv m ih =>
    by_cases hk : kv.1 = k
    · simp [replaceVal, hk, dictGet]
    · simp only [containsKey, if_neg hk] at h
      simp only [replaceVal, if_neg hk, dictGet, if_neg hk]
      exact ih h

theorem dictGet_insert (m : Dict) (k0 v0 k : PyStr) :
    dictGet (dictInsert m k0 v0) k = if k0 = k then some v0 else dictGet m k := by
  unfold dictInsert
  by_cases hc : containsKey m k0 = true
  · simp only [hc, if_true]
    by_cases hk : k0 = k
    · subst hk
      simp [dictGet_replaceVal_self m k0 v0 hc]
    · simp [hk, dictGet_replaceVal_ne m k0 v0 k hk]
  · have hc' : containsKey m k0 = false := by
      cases hcc : containsKey m k0
      · rfl
      · exact absurd hcc hc
    simp only [hc', Bool.false_eq_true, if_false]
    rw [dictGet_append_last]
    by_cases hk : k0 = k
    · subst hk
      have hnone : dictGet m k0 = none := dictGet_eq_none_of_not_contains m k0 hc'
      simp [hnone, optOr]
    · simp only [if_neg hk]
      exact optOr_none _

theorem dictGet_foldl_insert (ps : List (PyStr × PyStr)) :
    ∀ (m : Dict) (k : PyStr),
      dictGet (ps.foldl (fun acc kv => dictInsert acc kv.1 kv.2) m) k =
        optOr (lastLookup ps k) (dictGet m k) := by
  induction ps with
  | nil => intro m k; simp [lastLookup, optOr]
  | cons kv rest ih =>
    intro m k
    simp only [List.foldl_cons, lastLookup]
    rw [ih, dictGet_insert]
    cases hl : lastLookup rest k with
    | some v => simp [optOr]
    | none =>
      simp only [optOr]
      by_cases hk : kv.1 = k
      · simp [hk]
      · simp [hk]

theorem foldl_insert_filterMap (parts : List PyStr) :
    ∀ m : Dict,
      parts.foldl
        (fun kvPairs part =>
          if '=' ∈ part then
            dictInsert kvPairs (pyStrip (splitOnceEq part).1) (pyStrip (splitOnceEq part).2)
          else kvPairs) m =
      (parts.filterMap
        (fun part =>
          if '=' ∈ part then
            some (pyStrip (splitOnceEq part).1, pyStrip (splitOnceEq part).2)
          else none)).foldl (fun acc kv => dictInsert acc kv.1 kv.2) m := by
  induction parts with
  | nil => intro m; rfl
  | cons p rest ih =>
    intro m
    by_cases hp : '=' ∈ p
    · simp [List.foldl_cons, List.filterMap_cons, hp, ih]
    · simp [List.foldl_cons, List.filterMap_cons, hp, ih]

/-- Claim C1: parsing splits the input on whitespace, keeps only tokens
containing an equals sign, splits each once at the first equals sign, and
the resulting mapping answers every key lookup with the value of the last
occurrence of that key; tokens without an equals sign contribute nothing,
and the empty input yields the empty mapping. -/
theorem parse_last_wins :
    parse_scontrol_output "".data = [] ∧
    ∀ (output k : PyStr),
      dictGet (parse_scontrol_output output) k = lastLookup (pairsOf output) k := by
  constructor
  · rfl
  · intro output k
    unfold parse_scontrol_output pairsOf
    rw [foldl_insert_filterMap, dictGet_foldl_insert]
    simp [dictGet, optOr_none]

theorem matchAtStart_iff (l : PyStr) :
    ∀ r : Regex, matchAtStart r l = true ↔ ∃ t, t <+: l ∧ rmatch r t = true := by
  induction l with
  | nil =>
    intro r
    constructor
    · intro h
      exact ⟨[], List.nil_prefix, by simpa [matchAtStart, rmatch] using h⟩
    · rintro ⟨t, ht, hm⟩
      have : t = [] := List.prefix_nil.mp ht
      subst this
      simpa [matchAtStart, rmatch] using hm
  | cons a s ih =>
    intro r
    simp only [matchAtStart, Bool.or_eq_true]
    constructor
    · rintro (h | h)
      · exact ⟨[], List.nil_prefix, by simpa [rmatch] using h⟩
      · obtain ⟨t, ht, hm⟩ := (ih (rderiv r a)).mp h
        exact ⟨a :: t, List.cons_prefix_cons.mpr ⟨rfl, ht⟩, by simpa [rmatch] using hm⟩
    · rintro ⟨t, ht, hm⟩
      cases t with
      | nil => exact Or.inl (by simpa [rmatch] using hm)
      | cons b t' =>
        obtain ⟨hb, ht'⟩ := List.cons_prefix_cons.mp ht
        subst hb
        exact Or.inr ((ih (rderiv r b)).mpr ⟨t', ht', by simpa [rmatch] using hm⟩)

theorem reSearch_iff_atStart (r : Regex) (s : PyStr) :
    reSearch r s = true ↔ ∃ t, t <:+ s ∧ matchAtStart r t = true := by
  induction s with
  | nil =>
    constructor
    · intro h
      exact ⟨[], List.suffix_nil.mpr rfl, by simpa [reSearch, matchAtStart] using h⟩
    · rintro ⟨t, ht, hm⟩
      have : t = [] := List.suffix_nil.mp ht
      subst this
      simpa [reSearch, matchAtStart] using hm
  | cons a s ih =>
    simp only [reSearch, Bool.or_eq_true]
    constructor
    · rintro (h | h)
      · exact ⟨a :: s, List.suffix_rfl, h⟩
      · obtain ⟨t, ht, hm⟩ := ih.mp h
        exact ⟨t, ht.trans (List.suffix_cons a s), hm⟩
    · rintro ⟨t, ht, hm⟩
      rcases List.suffix_cons_iff.mp ht with h | h
      · subst h
        exact Or.inl hm
      · exact Or.inr (ih.mpr ⟨t, h, hm⟩)

/-- pattern.search(key) succeeds exactly when the pattern fully matches
some contiguous segment of the key: the search is unanchored and not a
full match. -/
theorem reSearch_iff_infix_match (r : Regex) (s : PyStr) :
    reSearch r s = true ↔ ∃ t, t <:+: s ∧ rmatch r t = true := by
  rw [reSearch_iff_atStart]
  constructor
  · rintro ⟨u, hu, hm⟩
    obtain ⟨t, htu, hr⟩ := (matchAtStart_iff u r).mp hm
    exact ⟨t, List.infix_iff_prefix_suffix.mpr ⟨u, htu, hu⟩, hr⟩
  · rintro ⟨t, hinf, hr⟩
    obtain ⟨u, htu, hu⟩ := List.infix_iff_prefix_suffix.mp hinf
    exact ⟨u, hu, (matchAtStart_iff u r).mpr ⟨t, htu, hr⟩⟩

/-- Claim C2 counterexample: with an explicitly given empty field list the
code includes every row (Python truthiness treats the empty list as no
filter), although the claim's condition — no field list given, or the
lowercased key among the lowercased field names — is false there. -/
theorem table_filter_empty_fields_cex :
    tableFilter (some ([] : List PyStr)) none ("JobId".data) = true ∧
    ¬ ((some ([] : List PyStr)) = none ∨
        pyLower ("JobId".data) ∈ ([] : List PyStr).map pyLower) := by
  constructor
  · rfl
  · simp

/-- Claim C2 (amended): a row is included exactly when (no field list is
given, or the given field list is empty, or the lowercased key is a member
of the lowercased field list) and (no pattern is given, or the pattern has
a case-insensitive match on some contiguous segment of the key — an
unanchored search, not a full match). -/
theorem table_filter_characterization :
    ∀ (fields : Option (List PyStr)) (pattern : Option Regex) (key : PyStr),
      tableFilter fields pattern key = true ↔
        ((match fields with
          | none => True
          | some fs => fs = [] ∨ pyLower key ∈ fs.map pyLower) ∧
         (match pattern with
          | none => True
          | some p => ∃ t, t <:+: key ∧ rmatch p t = true)) := by
  intro fields pattern key
  cases fields with
  | none =>
    cases pattern with
    | none => simp [tableFilter, rowIncluded, lowerFieldsOf]
    | some p =>
      simpa [tableFilter, rowIncluded, lowerFieldsOf] using reSearch_iff_infix_match p key
  | some fs =>
    by_cases hfs : fs = []
    · subst hfs
      cases pattern with
      | none => simp [tableFilter, rowIncluded, lowerFieldsOf]
      | some p =>
        simpa [tableFilter, rowIncluded, lowerFieldsOf] using reSearch_iff_infix_match p key
    · have hlf : lowerFieldsOf (some fs) = some (fs.map pyLower) := by
        simp [lowerFieldsOf, hfs]
      have hmap : ¬ fs.map pyLower = [] := by
        simpa using hfs
      cases pattern with
      | none => simp [tableFilter, rowIncluded, hlf, hmap, hfs]
      | some p =>
        simp only [tableFilter, hlf, rowIncluded, if_neg hmap, Bool.and_eq_true,
          decide_eq_true_iff]
        rw [reSearch_iff_infix_match p key]
        constructor
        · rintro ⟨h1, h2⟩
          exact ⟨Or.inr h1, h2⟩
        · rintro ⟨h1, h2⟩
          rcases h1 with h1 | h1
          · exact absurd h1 hfs
          · exact ⟨h1, h2⟩

/-- Claim C4 counterexample: with Command set to the literal (null) and
BatchScript present, the derived script path is (null) — the or-chain only
falls through on falsy values, so a (null) Command is not treated as
absent and the BatchScript value is not used. -/
theorem script_path_null_command_cex :
    get_script_path dCmdNullBatch = some nullLit ∧
    dictGet dCmdNullBatch batchKey = some ("/a/b.sh".data) ∧
    get_script_path dCmdNullBatch ≠ dictGet dCmdNullBatch batchKey := by
  refine ⟨by decide, by decide, by decide⟩

/-- Claim C4 (amended): the derived script path is the Command value when
Command is present with a non-empty value (a (null) value still counts as
present), otherwise it is the BatchScript lookup, and so unavailable when
neither is present; an empty Command value falls through to BatchScript. -/
theorem script_path_selection :
    ∀ data : Dict,
      (∀ v, dictGet data cmdKey = some v → v ≠ [] → get_script_path data = some v) ∧
      ((dictGet data cmdKey = none ∨ dictGet data cmdKey = some []) →
        get_script_path data = dictGet data batchKey) ∧
      ((dictGet data cmdKey = none ∨ dictGet data cmdKey = some []) →
        dictGet data batchKey = none → get_script_path data = none) := by
  intro data
  refine ⟨?_, ?_, ?_⟩
  · intro v hv hne
    simp [get_script_path, pyOr, truthyS, hv, hne]
  · rintro (h | h) <;> simp [get_script_path, pyOr, truthyS, h]
  · rintro (h | h) hb <;> simp [get_script_path, pyOr, truthyS, h, hb]

theorem script_path_selection_witness :
    get_script_path dCmd = some ("/x".data) ∧
    get_script_path ([] : Dict) = dictGet ([] : Dict) batchKey ∧
    get_script_path ([] : Dict) = none :=
  ⟨(script_path_selection dCmd).1 ("/x".data) (by decide) (by decide),
   (script_path_selection []).2.1 (Or.inl (by decide)),
   (script_path_selection []).2.2 (Or.inl (by decide)) (by decide)⟩

/-- Claim C3 counterexample: a WorkDir value of the literal (null) is not
treated as absent in working-directory joining — a relative path is joined
onto the string (null), whereas with WorkDir absent it is left as-is. -/
theorem null_workdir_not_absent_cex :
    resolve_show_path dWdNull ("out.log".data) = "(null)/out.log".data ∧
    resolve_show_path ([] : Dict) ("out.log".data) = "out.log".data ∧
    resolve_show_path dWdNull ("out.log".data) ≠
      resolve_show_path ([] : Dict) ("out.log".data) := by
  refine ⟨by decide, by decide, by decide⟩

/-- Claim C3 (amended): an empty or absent WorkDir suppresses joining, and
an empty or absent Command falls through to BatchScript, the empty value
behaving like absence in both; the content-display availability check
treats a missing, an empty and a (null) path value identically; but a
(null) WorkDir is joined like any other non-empty value and a (null)
Command is kept as the script path, so (null) is not treated as absent in
those two code paths. -/
theorem null_empty_path_handling :
    ∀ (data : Dict) (jobId : Int) (fs : PyStr → ReadResult) (ft : PyStr)
      (lines : Option Int) (tl : Bool) (p : PyStr),
      ((dictGet data workDirKey = none ∨ dictGet data workDirKey = some []) →
        resolve_show_path data p = p ∧ resolve_list_path data p = p) ∧
      ((dictGet data cmdKey = none ∨ dictGet data cmdKey = some []) →
        get_script_path data = dictGet data batchKey) ∧
      (show_file_content jobId data fs none ft lines tl =
          [.warnMsg (noPathMsg ft jobId)] ∧
       show_file_content jobId data fs (some []) ft lines tl =
          [.warnMsg (noPathMsg ft jobId)] ∧
       show_file_content jobId data fs (some nullLit) ft lines tl =
          [.warnMsg (noPathMsg ft jobId)]) ∧
      (∀ w, dictGet data workDirKey = some w → w ≠ [] → pyIsAbs p = false →
        resolve_show_path data p = pyJoin w p ∧ resolve_list_path data p = pyJoin w p) ∧
      (dictGet data cmdKey = some nullLit → get_script_path data = some nullLit) := by
  intro data jobId fs ft lines tl p
  refine ⟨?_, ?_, ⟨?_, ?_, ?_⟩, ?_, ?_⟩
  · rintro (h | h) <;>
      exact ⟨by simp [resolve_show_path, get_working_dir, h],
             by simp [resolve_list_path, get_working_dir, h]⟩
  · rintro (h | h) <;> simp [get_script_path, pyOr, truthyS, h]
  · simp [show_file_content, truthyS]
  · simp [show_file_content, truthyS]
  · simp [show_file_content, truthyS]
  · intro w hw hne habs
    exact ⟨by simp [resolve_show_path, get_working_dir, hw, hne, habs],
           by simp [resolve_list_path, get_working_dir, hw, hne, habs]⟩
  · intro h
    have hne : nullLit ≠ [] := by decide
    simp [get_script_path, pyOr, truthyS, h, hne]

theorem null_empty_path_handling_witness :
    (resolve_show_path ([] : Dict) ("x.log".data) = "x.log".data ∧
     resolve_list_path ([] : Dict) ("x.log".data) = "x.log".data) ∧
    (show_file_content 1 ([] : Dict) wFs (some nullLit) ("script".data) none false =
      [Event.warnMsg (noPathMsg ("script".data) 1)]) ∧
    (resolve_show_path dWd ("y.log".data) = pyJoin ("/w".data) ("y.log".data)) ∧
    (get_script_path dCmdNullOnly = some nullLit) :=
  ⟨(null_empty_path_handling [] 1 wFs ("script".data) none false ("x.log".data)).1
      (Or.inl (by decide)),
   ((null_empty_path_handling [] 1 wFs ("script".data) none false ("x.log".data)).2.2.1).2.2,
   ((null_empty_path_handling dWd 1 wFs ("y.log".data) none false ("y.log".data)).2.2.2.1
      ("/w".data) (by decide) (by decide) (by decide)).1,
   (null_empty_path_handling dCmdNullOnly 1 wFs ("x".data) none false ("x".data)).2.2.2.2
      (by decide)⟩

theorem pyJoin_nil (p : PyStr) (h : pyIsAbs p = false) : pyJoin [] p = p := by
  simp [pyJoin, h]

/-- Claim C5: path resolution leaves an absolute path unchanged, joins a
non-absolute path onto the working-directory value when that attribute is
present, and leaves it as-is when it is absent; both resolution sites of
the source agree with this reading (an empty working directory joins to
the path itself, coinciding with as-is). -/
theorem path_resolution_matches_spec :
    ∀ (data : Dict) (p : PyStr),
      resolve_show_path data p = resolve_per_spec data p ∧
      resolve_list_path data p = resolve_per_spec data p := by
  intro data p
  have hb : resolve_show_path data p = resolve_per_spec data p := by
    unfold resolve_show_path resolve_per_spec get_working_dir
    by_cases habs : pyIsAbs p
    · simp [habs]
    · rw [if_neg habs, if_neg habs]
      cases h : dictGet data workDirKey with
      | none => rfl
      | some w =>
        by_cases hw : w = []
        · subst hw
          simp [pyJoin_nil p (by simpa using habs)]
        · simp [hw]
  have hc : resolve_list_path data p = resolve_show_path data p := by
    unfold resolve_list_path resolve_show_path
    rfl
  exact ⟨hb, hc.trans hb⟩

theorem pySliceFrom_neg (l : List PyStr) (n : Int) (h : 0 < n) :
    pySliceFrom l (-n) = l.drop (l.length - n.toNat) := by
  unfold pySliceFrom
  rw [if_pos (by omega)]
  congr 1
  omega

theorem selectContent_first (ls : List PyStr) (n : Int) (h : n ≠ 0) :
    selectContent ls (some n) false = ls.take n.toNat := by
  simp [selectContent, h]

theorem selectContent_last (ls : List PyStr) (n : Int) (h : 0 < n) :
    selectContent ls (some n) true = ls.drop (ls.length - n.toNat) := by
  have hn : n ≠ 0 := by omega
  simp [selectContent, hn, pySliceFrom_neg ls n h]

theorem show_file_content_read (jobId : Int) (data : Dict) (fs : PyStr → ReadResult)
    (p ft : PyStr) (ls : List PyStr) (lines : Option Int) (tl : Bool)
    (hne : p ≠ []) (hnull : p ≠ nullLit)
    (hread : fs (resolve_show_path data p) = .readOk ls) :
    show_file_content jobId data fs (some p) ft lines tl =
      [.panelOut (panelTitle jobId ft (resolve_show_path data p) (suffixFor lines tl))
        ((selectContent ls lines tl).flatten)] := by
  unfold show_file_content
  rw [if_neg]
  · simp only [Option.getD_some]
    rw [hread]
  · simp [truthyS, hne, hnull]

/-- Claim C6 counterexample: with a line count of 0 and the tail flag
unset the renderer displays the entire file content, not the first 0
lines — a Python-falsy line count disables truncation altogether. -/
theorem lines_zero_shows_whole_file_cex :
    (show_file_content 1 ([] : Dict) fsC (some ("/f".data)) ("stdout log".data)
        (some 0) false).map eventContent = [some lC.flatten] ∧
    lC.flatten ≠ (lC.take ((0 : Int)).toNat).flatten := by
  refine ⟨by decide, by decide⟩

/-- Claim C6 (amended): for every readable file and every positive line
count N, the renderer with the tail flag unset displays exactly the first
N lines and with the tail flag set exactly the last N lines; with no line
count it displays the entire content; a line count of 0 behaves as if no
line count were given. -/
theorem file_content_line_selection :
    ∀ (jobId : Int) (data : Dict) (fs : PyStr → ReadResult) (p ft : PyStr)
      (ls : List PyStr) (n : Int) (tl : Bool),
      p ≠ [] → p ≠ nullLit → fs (resolve_show_path data p) = .readOk ls →
      (0 < n →
        show_file_content jobId data fs (some p) ft (some n) false =
          [.panelOut (panelTitle jobId ft (resolve_show_path data p)
              (suffixFor (some n) false)) ((ls.take n.toNat).flatten)] ∧
        show_file_content jobId data fs (some p) ft (some n) true =
          [.panelOut (panelTitle jobId ft (resolve_show_path data p)
              (suffixFor (some n) true)) ((ls.drop (ls.length - n.toNat)).flatten)]) ∧
      (show_file_content jobId data fs (some p) ft none tl =
        [.panelOut (panelTitle jobId ft (resolve_show_path data p)
            (suffixFor none tl)) ls.flatten]) ∧
      (show_file_content jobId data fs (some p) ft (some 0) tl =
        show_file_content jobId data fs (some p) ft none tl) := by
  intro jobId data fs p ft ls n tl hne hnull hread
  refine ⟨?_, ?_, ?_⟩
  · intro hn
    constructor
    · rw [show_file_content_read jobId data fs p ft ls (some n) false hne hnull hread,
        selectContent_first ls n (by omega)]
    · rw [show_file_content_read jobId data fs p ft ls (some n) true hne hnull hread,
        selectContent_last ls n hn]
  · rw [show_file_content_read jobId data fs p ft ls none tl hne hnull hread]
    rfl
  · rw [show_file_content_read jobId data fs p ft ls (some 0) tl hne hnull hread,
      show_file_content_read jobId data fs p ft ls none tl hne hnull hread]
    cases tl <;> simp [selectContent, suffixFor]

theorem file_content_line_selection_witness :
    (show_file_content 1 ([] : Dict) wFs6 (some ("/g".data)) ("stdout log".data)
        (some 2) false =
      [Event.panelOut (panelTitle 1 ("stdout log".data) (resolve_show_path [] ("/g".data))
          (suffixFor (some 2) false)) ((wLines.take ((2 : Int)).toNat).flatten)]) ∧
    (show_file_content 1 ([] : Dict) wFs6 (some ("/g".data)) ("stdout log".data)
        none false =
      [Event.panelOut (panelTitle 1 ("stdout log".data) (resolve_show_path [] ("/g".data))
          (suffixFor none false)) wLines.flatten]) :=
  ⟨((file_content_line_selection 1 [] wFs6 ("/g".data) ("stdout log".data) wLines 2 false
      (by decide) (by decide) (by decide)).1 (by decide)).1,
   (file_content_line_selection 1 [] wFs6 ("/g".data) ("stdout log".data) wLines 2 false
      (by decide) (by decide) (by decide)).2.1⟩

/-- Claim C7: each successfully fetched job is dispatched to exactly one
display mode, chosen by the fixed priority order: json dump first, then
file-paths listing, then script, then stdout, then stderr, then the
default table. -/
theorem dispatch_priority_order :
    ∀ a : Args,
      (a.json = true → dispatch a = .jsonDump) ∧
      (a.json = false → a.files = true → dispatch a = .filesMode) ∧
      (a.json = false → a.files = false → a.script = true →
        dispatch a = .scriptMode) ∧
      (a.json = false → a.files = false → a.script = false → a.stdout = true →
        dispatch a = .stdoutMode) ∧
      (a.json = false → a.files = false → a.script = false → a.stdout = false →
        a.stderr = true → dispatch a = .stderrMode) ∧
      (a.json = false → a.files = false → a.script = false → a.stdout = false →
        a.stderr = false → dispatch a = .tableMode) := by
  intro a
  refine ⟨?_, ?_, ?_, ?_, ?_, ?_⟩ <;> intros <;> simp [dispatch, *]

theorem dispatch_priority_order_witness :
    dispatch ⟨true, true, true, true, true, none, none, none, false⟩ = .jsonDump ∧
    dispatch ⟨false, true, true, true, true, none, none, none, false⟩ = .filesMode ∧
    dispatch ⟨false, false, true, true, true, none, none, none, false⟩ = .scriptMode ∧
    dispatch ⟨false, false, false, true, true, none, none, none, false⟩ = .stdoutMode ∧
    dispatch ⟨false, false, false, false, true, none, none, none, false⟩ = .stderrMode ∧
    dispatch wArgs = .tableMode :=
  ⟨(dispatch_priority_order _).1 rfl,
   (dispatch_priority_order _).2.1 rfl rfl,
   (dispatch_priority_order _).2.2.1 rfl rfl rfl,
   (dispatch_priority_order _).2.2.2.1 rfl rfl rfl rfl,
   (dispatch_priority_order _).2.2.2.2.1 rfl rfl rfl rfl rfl,
   (dispatch_priority_order wArgs).2.2.2.2.2 rfl rfl rfl rfl rfl⟩

/-- Claim C8: a fetch failure for one job yields an error message naming
that job id, leaves the job with no data, and the run decomposes around
that job so every subsequent job id is still processed in order. -/
theorem fetch_failure_isolated :
    ∀ (env : SysEnv) (a : Args) (j1 j2 : List Int) (jid : Int),
      isFailure (env.scontrol jid) = true →
      (fetch_data jid (env.scontrol jid)).1 = none ∧
      (∃ msg, processJob env a jid = [.errorMsg msg] ∧ intToStr jid <:+: msg) ∧
      mainLoop env a (j1 ++ jid :: j2) =
        mainLoop env a j1 ++ processJob env a jid ++ mainLoop env a j2 := by
  intro env a j1 j2 jid hfail
  refine ⟨?_, ?_, ?_⟩
  · cases h : env.scontrol jid with
    | success out => rw [h] at hfail; simp [isFailure] at hfail
    | procError e => simp [fetch_data]
    | otherError e => simp [fetch_data]
  · cases h : env.scontrol jid with
    | success out => rw [h] at hfail; simp [isFailure] at hfail
    | procError e =>
      refine ⟨fetchProcErrMsg jid e, by simp [processJob, h, fetch_data], ?_⟩
      exact ⟨"[red]Error[/red]: Failed to execute scontrol for job ".data,
        ": ".data ++ e, by simp [fetchProcErrMsg, List.append_assoc]⟩
    | otherError e =>
      refine ⟨fetchOtherErrMsg jid e, by simp [processJob, h, fetch_data], ?_⟩
      exact ⟨"[red]Error[/red]: Unexpected error fetching data for job ".data,
        ": ".data ++ e, by simp [fetchOtherErrMsg, List.append_assoc]⟩
  · simp [mainLoop, List.map_append, List.flatten_append, List.map_cons,
      List.flatten_cons, List.append_assoc]

theorem fetch_failure_isolated_witness :
    (fetch_data 12345 (wEnv.scontrol 12345)).1 = none ∧
    (∃ msg, processJob wEnv wArgs 12345 = [.errorMsg msg] ∧ intToStr 12345 <:+: msg) ∧
    mainLoop wEnv wArgs ([1] ++ 12345 :: [3]) =
      mainLoop wEnv wArgs [1] ++ processJob wEnv wArgs 12345 ++ mainLoop wEnv wArgs [3] :=
  fetch_failure_isolated wEnv wArgs [1] [3] 12345 rfl

/-- Claim C9: a syntactically invalid regex filter (one the compiler
rejects; the empty pattern never is, being falsy) makes the table display
emit exactly one error naming the bad pattern and no table — zero rows for
that job — while the run still decomposes job by job, leaving every other
job unaffected. -/
theorem invalid_regex_aborts_table :
    ∀ (jobId : Int) (data : Dict) (fields : Option (List PyStr)) (pat e : PyStr)
      (compile : PyStr → Except PyStr Regex),
      pat ≠ [] → compile pat = .error e →
      (print_table jobId data fields (some pat) compile =
          [.errorMsg (invalidRegexMsg pat e)] ∧
        pat <:+: invalidRegexMsg pat e) ∧
      (∀ (env : SysEnv) (a : Args) (j1 j2 : List Int) (jid : Int),
        mainLoop env a (j1 ++ jid :: j2) =
          mainLoop env a j1 ++ processJob env a jid ++ mainLoop env a j2) := by
  intro jobId data fields pat e compile hne hcomp
  constructor
  · constructor
    · simp [print_table, hne, hcomp]
    · exact ⟨"[red]Error[/red]: Invalid regex pattern \x27".data,
        "\x27: ".data ++ e, by simp [invalidRegexMsg, List.append_assoc]⟩
  · intro env a j1 j2 jid
    simp [mainLoop, List.map_append, List.flatten_append, List.map_cons,
      List.flatten_cons, List.append_assoc]

theorem invalid_regex_aborts_table_witness :
    (print_table 7 ([] : Dict) none (some ("(".data)) wBadCompile =
        [Event.errorMsg (invalidRegexMsg ("(".data) ("err".data))] ∧
      ("(".data) <:+: invalidRegexMsg ("(".data) ("err".data)) ∧
    (mainLoop wEnv wArgs ([1] ++ 2 :: [3]) =
      mainLoop wEnv wArgs [1] ++ processJob wEnv wArgs 2 ++ mainLoop wEnv wArgs [3]) :=
  ⟨(invalid_regex_aborts_table 7 [] none ("(".data) ("err".data) wBadCompile
      (by decide) rfl).1,
   (invalid_regex_aborts_table 7 [] none ("(".data) ("err".data) wBadCompile
      (by decide) rfl).2 wEnv wArgs [1] [3] 2⟩

theorem mem_fileRow_fst (data : Dict) (isdir pathEx : PyStr → Bool) (ft : PyStr)
    (p? : Option PyStr) (x : PyStr × PyStr × PyStr)
    (hx : x ∈ fileRow data isdir pathEx ft p?) :
    x.1 = ft ∧ x.2.1 ≠ [] ∧ x.2.1 ≠ nullLit ∧ p? = some x.2.1 := by
  cases p? with
  | none => simp [fileRow] at hx
  | some p =>
    by_cases h : p ≠ [] ∧ p ≠ nullLit
    · simp only [fileRow, if_pos h] at hx
      by_cases hft : ft = fileTypeWorkDir
      · rw [if_pos hft] at hx
        have := List.mem_singleton.mp hx
        subst this
        exact ⟨rfl, h.1, h.2, rfl⟩
      · rw [if_neg hft] at hx
        have := List.mem_singleton.mp hx
        subst this
        exact ⟨rfl, h.1, h.2, rfl⟩
    · simp only [fileRow, if_neg h] at hx
      simp at hx

theorem fileRow_self_mem (data : Dict) (isdir pathEx : PyStr → Bool) (ft p : PyStr)
    (h1 : p ≠ []) (h2 : p ≠ nullLit) :
    ∃ g, (ft, p, g) ∈ fileRow data isdir pathEx ft (some p) := by
  simp only [fileRow, if_pos (And.intro h1 h2)]
  by_cases hft : ft = fileTypeWorkDir
  · rw [if_pos hft]
    exact ⟨_, List.mem_singleton.mpr rfl⟩
  · rw [if_neg hft]
    exact ⟨_, List.mem_singleton.mpr rfl⟩

/-- Claim C10: the file-paths listing emits a row for Script, StdOut,
StdErr or WorkDir exactly when the corresponding derived path is present
with a non-empty value other than the literal (null); entries with an
absent path are silently omitted — no warning event exists — and the
table event is emitted even when every row was omitted. -/
theorem file_listing_rows :
    ∀ (jobId : Int) (data : Dict) (isdir pathEx : PyStr → Bool),
      ∃ rows, list_file_paths jobId data isdir pathEx =
          [.fileTable (fileTableTitle jobId) rows] ∧
        (∀ t p g, (t, p, g) ∈ rows → p ≠ [] ∧ p ≠ nullLit) ∧
        ((∃ p g, (fileTypeScript, p, g) ∈ rows) ↔
          (∃ p, get_script_path data = some p ∧ p ≠ [] ∧ p ≠ nullLit)) ∧
        ((∃ p g, (fileTypeStdOut, p, g) ∈ rows) ↔
          (∃ p, get_stdout_path data = some p ∧ p ≠ [] ∧ p ≠ nullLit)) ∧
        ((∃ p g, (fileTypeStdErr, p, g) ∈ rows) ↔
          (∃ p, get_stderr_path data = some p ∧ p ≠ [] ∧ p ≠ nullLit)) ∧
        ((∃ p g, (fileTypeWorkDir, p, g) ∈ rows) ↔
          (∃ p, get_working_dir data = some p ∧ p ≠ [] ∧ p ≠ nullLit)) := by
  intro jobId data isdir pathEx
  refine ⟨_, rfl, ?_, ?_, ?_, ?_, ?_⟩
  · intro t p g hm
    rcases List.mem_append.mp hm with hm | hm
    · rcases List.mem_append.mp hm with hm | hm
      · rcases List.mem_append.mp hm with hm | hm
        · exact ⟨(mem_fileRow_fst _ _ _ _ _ _ hm).2.1, (mem_fileRow_fst _ _ _ _ _ _ hm).2.2.1⟩
        · exact ⟨(mem_fileRow_fst _ _ _ _ _ _ hm).2.1, (mem_fileRow_fst _ _ _ _ _ _ hm).2.2.1⟩
      · exact ⟨(mem_fileRow_fst _ _ _ _ _ _ hm).2.1, (mem_fileRow_fst _ _ _ _ _ _ hm).2.2.1⟩
    · exact ⟨(mem_fileRow_fst _ _ _ _ _ _ hm).2.1, (mem_fileRow_fst _ _ _ _ _ _ hm).2.2.1⟩
  · constructor
    · rintro ⟨p, g, hm⟩
      rcases List.mem_append.mp hm with hm | hm
      · rcases List.mem_append.mp hm with hm | hm
        · rcases List.mem_append.mp hm with hm | hm
          · have h := mem_fileRow_fst _ _ _ _ _ _ hm
            exact ⟨p, h.2.2.2, h.2.1, h.2.2.1⟩
          · have hq : fileTypeScript = fileTypeStdOut := (mem_fileRow_fst _ _ _ _ _ _ hm).1
            exact absurd hq (by decide)
        · have hq : fileTypeScript = fileTypeStdErr := (mem_fileRow_fst _ _ _ _ _ _ hm).1
          exact absurd hq (by decide)
      · have hq : fileTypeScript = fileTypeWorkDir := (mem_fileRow_fst _ _ _ _ _ _ hm).1
        exact absurd hq (by decide)
    · rintro ⟨p, hp, h1, h2⟩
      obtain ⟨g, hg⟩ := fileRow_self_mem data isdir pathEx fileTypeScript p h1 h2
      rw [← hp] at hg
      exact ⟨p, g, List.mem_append.mpr (Or.inl (List.mem_append.mpr (Or.inl (List.mem_append.mpr (Or.inl hg)))))⟩
  · constructor
    · rintro ⟨p, g, hm⟩
      rcases List.mem_append.mp hm with hm | hm
      · rcases List.mem_append.mp hm with hm | hm
        · rcases List.mem_append.mp hm with hm | hm
          · have hq : fileTypeStdOut = fileTypeScript := (mem_fileRow_fst _ _ _ _ _ _ hm).1
            exact absurd hq (by decide)
          · have h := mem_fileRow_fst _ _ _ _ _ _ hm
            exact ⟨p, h.2.2.2, h.2.1, h.2.2.1⟩
        · have hq : fileTypeStdOut = fileTypeStdErr := (mem_fileRow_fst _ _ _ _ _ _ hm).1
          exact absurd hq (by decide)
      · have hq : fileTypeStdOut = fileTypeWorkDir := (mem_fileRow_fst _ _ _ _ _ _ hm).1
        exact absurd hq (by decide)
    · rintro ⟨p, hp, h1, h2⟩
      obtain ⟨g, hg⟩ := fileRow_self_mem data isdir pathEx fileTypeStdOut p h1 h2
      rw [← hp] at hg
      exact ⟨p, g, List.mem_append.mpr (Or.inl (List.mem_append.mpr (Or.inl (List.mem_append.mpr (Or.inr hg)))))⟩
  · constructor
    · rintro ⟨p, g, hm⟩
      rcases List.mem_append.mp hm with hm | hm
      · rcases List.mem_append.mp hm with hm | hm
        · rcases List.mem_append.mp hm with hm | hm
          · have hq : fileTypeStdErr = fileTypeScript := (mem_fileRow_fst _ _ _ _ _ _ hm).1
            exact absurd hq (by decide)
          · have hq : fileTypeStdErr = fileTypeStdOut := (mem_fileRow_fst _ _ _ _ _ _ hm).1
            exact absurd hq (by decide)
        · have h := mem_fileRow_fst _ _ _ _ _ _ hm
          exact ⟨p, h.2.2.2, h.2.1, h.2.2.1⟩
      · have hq : fileTypeStdErr = fileTypeWorkDir := (mem_fileRow_fst _ _ _ _ _ _ hm).1
        exact absurd hq (by decide)
    · rintro ⟨p, hp, h1, h2⟩
      obtain ⟨g, hg⟩ := fileRow_self_mem data isdir pathEx fileTypeStdErr p h1 h2
      rw [← hp] at hg
      exact ⟨p, g, List.mem_append.mpr (Or.inl (List.mem_append.mpr (Or.inr hg)))⟩
  · constructor
    · rintro ⟨p, g, hm⟩
      rcases List.mem_append.mp hm with hm | hm
      · rcases List.mem_append.mp hm with hm | hm
        · rcases List.mem_append.mp hm with hm | hm
          · have hq : fileTypeWorkDir = fileTypeScript := (mem_fileRow_fst _ _ _ _ _ _ hm).1
            exact absurd hq (by decide)
          · have hq : fileTypeWorkDir = fileTypeStdOut := (mem_fileRow_fst _ _ _ _ _ _ hm).1
            exact absurd hq (by decide)
        · have hq : fileTypeWorkDir = fileTypeStdErr := (mem_fileRow_fst _ _ _ _ _ _ hm).1
          exact absurd hq (by decide)
      · have h := mem_fileRow_fst _ _ _ _ _ _ hm
        exact ⟨p, h.2.2.2, h.2.1, h.2.2.1⟩
    · rintro ⟨p, hp, h1, h2⟩
      obtain ⟨g, hg⟩ := fileRow_self_mem data isdir pathEx fileTypeWorkDir p h1 h2
      rw [← hp] at hg
      exact ⟨p, g, List.mem_append.mpr (Or.inr hg)⟩

theorem file_listing_rows_witness :
    ∃ rows, list_file_paths 1 dStdout (fun _ => false) (fun _ => false) =
      [Event.fileTable (fileTableTitle 1) rows] :=
  (file_listing_rows 1 dStdout (fun _ => false) (fun _ => false)).elim
    (fun rows h => ⟨rows, h.1⟩)
